import Mathlib

/-!
# Verification of the pairing-based cryptographic accumulator

The repository implements a bilinear-pairing accumulator over BLS12-381
(`src/keys.rs`, `src/accumulator.rs`, `src/witness.rs`, `src/proof.rs`).
All group elements the program ever constructs are obtained from the fixed
generators `g1 : G1`, `g2 : G2` by scalar multiplication, negation and
addition, and every comparison the program performs is an equality of such
elements (directly, or of pairings of such elements).  Because G1, G2 and
GT are cyclic of the same prime order r, the maps `Fr → G1, a ↦ g1·a`,
`Fr → G2, b ↦ g2·b` and `Fr → GT, c ↦ e(g1,g2)·c` are group isomorphisms,
and `e(g1·a, g2·b) = e(g1,g2)·(a·b)`.  We therefore embed the code in its
discrete-logarithm coordinates: a G1 (resp. G2, GT) value is represented
by its scalar of the generator (resp. of `e(g1,g2)`), point addition
becomes field addition, scalar multiplication becomes field
multiplication, the generator becomes `1`, and the pairing becomes field
multiplication.  This representation is exact for every execution the
claims quantify over.

The development is parametric in the scalar field `F`; the program's field
is `Fr = ZMod blsR` with `blsR` the BLS12-381 scalar-field order (defined
below for the Fiat–Shamir challenge pipeline).  Concrete witnesses and
counterexamples are evaluated in `ZMod 13`, a field in which the relevant
algebraic identities are decidable; every general theorem is proved over
an arbitrary field, hence in particular over `Fr`.

Randomness (`thread_rng`) is modelled by passing the sampled scalar as an
explicit argument; a panic (`expect` / `assert!`) is modelled by `Option`
with `none` for the panicking executions.
-/

namespace CryptoAccumulator

/-- The order of the BLS12-381 scalar field `Fr`
(`0x73eda753299d7d483339d80809a1d80553bda402fffe5bfeffffffff00000001`),
shared by G1, G2 and GT (`src/keys.rs` lines 6-14). -/
def blsR : ℕ :=
  52435875175126190479447740508185965837690552500527637822603658699938581184513

variable {F : Type} [Field F] [DecidableEq F]

/-- `SecretKey` (`src/keys.rs`): a single scalar `alpha` in `Fr`. -/
structure SecretKey (F : Type) where
  alpha : F
deriving DecidableEq

/-- `PublicKey` (`src/keys.rs`): the pair `(g2, g2·α)` of G2 points, in
discrete-log coordinates with respect to `g2`. -/
structure PublicKey (F : Type) where
  g2 : F
  alpha : F
deriving DecidableEq

/-- `SecretKey::to_public_key` (`src/keys.rs` lines 67-72):
`g2 = G2::generator()` (dlog `1`) and `alpha = g2 * α` (dlog `1 * α`). -/
def SecretKey.to_public_key (sk : SecretKey F) : PublicKey F :=
  ⟨1, 1 * sk.alpha⟩

/-- `Element` (`src/accumulator.rs` lines 20-24): the G1 point `value`
(in dlog coordinates) together with the scalar `x`.  The intended
invariant `value = g1·x` reads `value = 1 * x` here; the code never
enforces it. -/
structure Element (F : Type) where
  value : F
  x : F
deriving DecidableEq

/-- `Accumulator` (`src/accumulator.rs` lines 11-14): one G1 point. -/
structure Accumulator (F : Type) where
  value : F
deriving DecidableEq

/-- `Accumulator::new` (`src/accumulator.rs` lines 34-38): starts at the
G1 generator, dlog `1`. -/
def Accumulator.new : Accumulator F :=
  ⟨1⟩

/-- `Accumulator::add` (`src/accumulator.rs` lines 67-70):
`alpha_point = value * α; value = elem.value + alpha_point`.  The Rust
method mutates in place; we return the updated state. -/
def Accumulator.add (acc : Accumulator F) (sk : SecretKey F) (elem : Element F) :
    Accumulator F :=
  let alpha_point := acc.value * sk.alpha
  ⟨elem.value + alpha_point⟩

/-- The bilinear pairing `e : G1 × G2 → GT` in discrete-log coordinates:
`e(g1·P, g2·Q) = e(g1,g2)·(P·Q)`.  Arkworks combines pairing outputs
additively, which is addition of GT dlogs here. -/
def pairing (P Q : F) : F :=
  P * Q

/-- `MembershipWitness` (`src/witness.rs` lines 12-14): one G1 point. -/
structure MembershipWitness (F : Type) where
  value : F
deriving DecidableEq

/-- `MembershipWitness::generate` (`src/witness.rs` lines 37-51):
`sum = x + α`; `inv = sum.inverse().expect(..)`; `witness = acc.value * inv`.
Arkworks' `Field::inverse` returns `None` exactly on `0`, so the `expect`
panics iff `sum = 0`; the panic is modelled as `none`. -/
def MembershipWitness.generate (acc : Accumulator F) (sk : SecretKey F)
    (elem : Element F) : Option (MembershipWitness F) :=
  let sum := elem.x + sk.alpha
  if sum = 0 then none
  else some ⟨acc.value * sum⁻¹⟩

/-- `MembershipWitness::verify` (`src/witness.rs` lines 89-105):
checks `e(w, pk.alpha) + e(elem.value, pk.g2) = e(acc.value, pk.g2)`
in GT. -/
def MembershipWitness.verify (w : MembershipWitness F) (acc : Accumulator F)
    (elem : Element F) (pk : PublicKey F) : Bool :=
  let pairing1 := pairing w.value pk.alpha
  let pairing2 := pairing elem.value pk.g2
  let lhs := pairing1 + pairing2
  let rhs := pairing acc.value pk.g2
  decide (lhs = rhs)

/-- `NonMembershipWitness` (`src/witness.rs` lines 20-23). -/
structure NonMembershipWitness (F : Type) where
  d : F
  v : F
deriving DecidableEq

/-- `NonMembershipWitness::generate` (`src/witness.rs` lines 119-148):
`sum = x + α`; `v` random (passed explicitly here); `g_v = g1·v`;
`temp = acc.value − g_v`; `d = temp * sum.inverse().expect(..)`; the code
then re-checks `g_v + d·sum = acc.value` with `assert!`.  Both the
`expect` panic (iff `sum = 0`) and an `assert!` failure are modelled as
`none`. -/
def NonMembershipWitness.generate (acc : Accumulator F) (sk : SecretKey F)
    (elem : Element F) (v : F) : Option (NonMembershipWitness F) :=
  let sum := elem.x + sk.alpha
  if sum = 0 then none
  else
    let g_v := 1 * v
    let g_v_inv := -g_v
    let temp := acc.value + g_v_inv
    let d := temp * sum⁻¹
    let d_pow_sum := d * sum
    let result := g_v + d_pow_sum
    if result = acc.value then some ⟨d, v⟩ else none

/-- `NonMembershipWitness::verify` (`src/witness.rs` lines 189-213):
checks `e(acc.value, pk.g2) = e(g1·v, pk.g2) + e(d, pk.alpha + pk.g2·x)`
in GT.  Note it reads `elem.x` but never `elem.value`. -/
def NonMembershipWitness.verify (w : NonMembershipWitness F)
    (acc : Accumulator F) (elem : Element F) (pk : PublicKey F) : Bool :=
  let g2_y := pk.g2 * elem.x
  let alpha_plus_y := pk.alpha + g2_y
  let lhs := pairing acc.value pk.g2
  let g1_v := 1 * w.v
  let pairing1 := pairing g1_v pk.g2
  let pairing2 := pairing w.d alpha_plus_y
  let rhs := pairing1 + pairing2
  decide (lhs = rhs)

/-- `ProofCommitment` (`src/proof.rs` lines 16-19): `t1 : G1`, `t2 : G2`,
both in dlog coordinates. -/
structure ProofCommitment (F : Type) where
  t1 : F
  t2 : F
deriving DecidableEq

/-- `MembershipProof` (`src/proof.rs` lines 27-30). -/
structure MembershipProof (F : Type) where
  commitment : ProofCommitment F
  response : F
deriving DecidableEq

/-- `MembershipWitness::create_proof` (`src/proof.rs` lines 47-90).
The random scalar `r` is passed explicitly.  The Fiat–Shamir challenge —
SHA-256 over the uncompressed serialisations of `acc.value`, `elem.value`,
`t1`, `t2`, reduced to `Fr` — is abstracted as a function `chal` of the
four hashed dlogs, in that order; its byte-level definition is modelled
separately below (`proverChallenge`).  The witness `self` is received but,
as in the source, never used. -/
def MembershipWitness.create_proof (_w : MembershipWitness F)
    (acc : Accumulator F) (elem : Element F) (pk : PublicKey F)
    (chal : F → F → F → F → F) (r : F) : MembershipProof F :=
  let t1 := 1 * r
  let t2 := pk.g2
  let challenge := chal acc.value elem.value t1 t2
  let response := r + challenge * elem.x
  ⟨⟨t1, t2⟩, response⟩

/-- `MembershipProof::verify` (`src/proof.rs` lines 134-174): recompute
the challenge from `acc.value`, `elem.value`, `t1`, `t2`, then check
`e(g1·response, pk.g2) = e(t1, pk.g2) + e(elem.value·challenge, pk.g2)`
in GT.  Note the element's scalar `elem.x` is never read. -/
def MembershipProof.verify (p : MembershipProof F) (acc : Accumulator F)
    (elem : Element F) (pk : PublicKey F)
    (chal : F → F → F → F → F) : Bool :=
  let challenge := chal acc.value elem.value p.commitment.t1 p.commitment.t2
  let response_point := 1 * p.response
  let lhs := pairing response_point pk.g2
  let pairing1 := pairing p.commitment.t1 pk.g2
  let elem_challenge := elem.value * challenge
  let pairing2 := pairing elem_challenge pk.g2
  let rhs := pairing1 + pairing2
  decide (lhs = rhs)

instance : Fact (Nat.Prime 13) := ⟨by norm_num⟩

/-- The concrete field used to evaluate the general theorems on explicit
inputs.  Every algebraic identity checked in `F13` is an instance of a
statement proved over an arbitrary field, hence also holds in `Fr`. -/
abbrev F13 := ZMod 13

/-- A concrete challenge function used to evaluate the proof layer on
explicit inputs; the sigma-protocol theorems hold for every challenge
function, this one merely makes the checks decidable. -/
def chalDemo : F13 → F13 → F13 → F13 → F13 :=
  fun a x t u => a + x + t + u

/-!
## The Fiat–Shamir challenge pipeline (C9)

`create_proof` (`src/proof.rs` lines 60-81) and `MembershipProof::verify`
(lines 136-155) both derive the challenge by feeding the uncompressed
affine canonical serialisations of `acc.value`, `elem.value`, `t1`, `t2`
— in that order — to SHA-256 (the `sha2` crate, FIPS 180-4) and
interpreting the 32-byte digest via `Fr::from_le_bytes_mod_order`.
SHA-256 and the little-endian reduction modulo `blsR` are modelled
concretely below on byte lists (bytes as naturals below 256); the
arkworks `serialize_uncompressed` encodings of G1 and G2 points are kept
abstract as a pair of functions of the point.  Feeding the hasher four
byte strings in sequence hashes their concatenation.
-/

/-- Truncation to a 32-bit word. -/
def w32 (x : ℕ) : ℕ :=
  x % 4294967296

/-- Right rotation of a 32-bit word. -/
def rotr32 (n x : ℕ) : ℕ :=
  w32 ((x >>> n) ||| (x <<< (32 - n)))

/-- Bitwise complement of a 32-bit word. -/
def wnot (x : ℕ) : ℕ :=
  x ^^^ 4294967295

/-- SHA-256 `Ch` function. -/
def shaCh (x y z : ℕ) : ℕ :=
  (x &&& y) ^^^ (wnot x &&& z)

/-- SHA-256 `Maj` function. -/
def shaMaj (x y z : ℕ) : ℕ :=
  (x &&& y) ^^^ (x &&& z) ^^^ (y &&& z)

/-- SHA-256 `Σ0`. -/
def bigSigma0 (x : ℕ) : ℕ :=
  rotr32 2 x ^^^ rotr32 13 x ^^^ rotr32 22 x

/-- SHA-256 `Σ1`. -/
def bigSigma1 (x : ℕ) : ℕ :=
  rotr32 6 x ^^^ rotr32 11 x ^^^ rotr32 25 x

/-- SHA-256 `σ0`. -/
def smallSigma0 (x : ℕ) : ℕ :=
  rotr32 7 x ^^^ rotr32 18 x ^^^ (x >>> 3)

/-- SHA-256 `σ1`. -/
def smallSigma1 (x : ℕ) : ℕ :=
  rotr32 17 x ^^^ rotr32 19 x ^^^ (x >>> 10)

/-- The 64 SHA-256 round constants `K` of FIPS 180-4 (the fractional
parts of the cube roots of the first 64 primes), written in decimal:
the first four are `0x428a2f98`, `0x71374491`, `0xb5c0fbcf`,
`0xe9b5dba5`, and so on. -/
def sha256K : List ℕ :=
  [1116352408, 1899447441, 3049323471, 3921009573,
   961987163, 1508970993, 2453635748, 2870763221,
   3624381080, 310598401, 607225278, 1426881987,
   1925078388, 2162078206, 2614888103, 3248222580,
   3835390401, 4022224774, 264347078, 604807628,
   770255983, 1249150122, 1555081692, 1996064986,
   2554220882, 2821834349, 2952996808, 3210313671,
   3336571891, 3584528711, 113926993, 338241895,
   666307205, 773529912, 1294757372, 1396182291,
   1695183700, 1986661051, 2177026350, 2456956037,
   2730485921, 2820302411, 3259730800, 3345764771,
   3516065817, 3600352804, 4094571909, 275423344,
   430227734, 506948616, 659060556, 883997877,
   958139571, 1322822218, 1537002063, 1747873779,
   1955562222, 2024104815, 2227730452, 2361852424,
   2428436474, 2756734187, 3204031479, 3329325298]

/-- The SHA-256 initial hash state (FIPS 180-4: the fractional parts of
the square roots of the first 8 primes, `0x6a09e667` onward), in
decimal. -/
def sha256H0 : List ℕ :=
  [1779033703, 3144134277, 1013904242, 2773480762,
   1359893119, 2600822924, 528734635, 1541459225]

/-- Big-endian 8-byte encoding (for the length field of the padding). -/
def beBytes8 (n : ℕ) : List ℕ :=
  [(n >>> 56) % 256, (n >>> 48) % 256, (n >>> 40) % 256, (n >>> 32) % 256,
   (n >>> 24) % 256, (n >>> 16) % 256, (n >>> 8) % 256, n % 256]

/-- Big-endian 4-byte encoding of a 32-bit word. -/
def beBytes4 (n : ℕ) : List ℕ :=
  [(n >>> 24) % 256, (n >>> 16) % 256, (n >>> 8) % 256, n % 256]

/-- SHA-256 padding: append `0x80`, zero bytes to 56 mod 64, then the
bit length as a big-endian 64-bit integer. -/
def sha256Pad (msg : List ℕ) : List ℕ :=
  let l := msg.length
  msg ++ [128] ++ List.replicate ((119 - l % 64) % 64) 0 ++ beBytes8 (8 * l)

/-- Big-endian assembly of a byte list into 32-bit words. -/
def toWords : List ℕ → List ℕ
  | a :: b :: c :: d :: rest =>
      (((a * 256 + b) * 256 + c) * 256 + d) :: toWords rest
  | _ => []

/-- Split a word list into blocks of 16 words; `fuel` bounds the
recursion and is instantiated with the list length. -/
def chunks16 : ℕ → List ℕ → List (List ℕ)
  | 0, _ => []
  | _, [] => []
  | fuel + 1, ws => ws.take 16 :: chunks16 fuel (ws.drop 16)

/-- Extend a 16-word block to the 64-word message schedule. -/
def extendSchedule : ℕ → List ℕ → List ℕ
  | 0, w => w
  | fuel + 1, w =>
      let t := w.length
      let wt := w32 (smallSigma1 (w.getD (t - 2) 0) + w.getD (t - 7) 0 +
        smallSigma0 (w.getD (t - 15) 0) + w.getD (t - 16) 0)
      extendSchedule fuel (w ++ [wt])

/-- One SHA-256 compression round: the state is the 8-word working
vector, the argument pairs a round constant with a schedule word. -/
def shaRound (st : List ℕ) (kw : ℕ × ℕ) : List ℕ :=
  match st with
  | [a, b, c, d, e, f, g, h] =>
      let t1 := w32 (h + bigSigma1 e + shaCh e f g + kw.1 + kw.2)
      let t2 := w32 (bigSigma0 a + shaMaj a b c)
      [w32 (t1 + t2), a, b, c, w32 (d + t1), e, f, g]
  | other => other

/-- Compress one 16-word block into the running hash state. -/
def compressBlock (st : List ℕ) (block : List ℕ) : List ℕ :=
  let ws := extendSchedule 48 block
  let out := (sha256K.zip ws).foldl shaRound st
  (st.zip out).map (fun p => w32 (p.1 + p.2))

/-- SHA-256 of a byte string, as its 32-byte digest. -/
def sha256 (msg : List ℕ) : List ℕ :=
  let padded := sha256Pad msg
  let ws := toWords padded
  let blocks := chunks16 ws.length ws
  let final := blocks.foldl compressBlock sha256H0
  (final.map beBytes4).flatten

/-- `Fr::from_le_bytes_mod_order`: interpret a byte string as a
little-endian integer and reduce it modulo `blsR`. -/
def fromLeBytesModOrder (bs : List ℕ) : ZMod blsR :=
  ((bs.foldr (fun b acc => b + 256 * acc) 0 : ℕ) : ZMod blsR)

/-- The arkworks canonical uncompressed affine encodings of G1 and G2
points, as abstract functions of the point (in dlog coordinates). -/
structure PointSerializer where
  g1 : ZMod blsR → List ℕ
  g2 : ZMod blsR → List ℕ

/-- The challenge computed by `create_proof` (`src/proof.rs` lines
60-81): serialise `acc.value`, `elem.value`, `t1`, `t2`, feed them to
SHA-256 in that order, and reduce the digest little-endian modulo r. -/
def proverChallenge (ser : PointSerializer)
    (accValue elemValue t1 t2 : ZMod blsR) : ZMod blsR :=
  let acc_bytes := ser.g1 accValue
  let elem_bytes := ser.g1 elemValue
  let t1_bytes := ser.g1 t1
  let t2_bytes := ser.g2 t2
  let challenge_bytes := sha256 (acc_bytes ++ elem_bytes ++ t1_bytes ++ t2_bytes)
  fromLeBytesModOrder challenge_bytes

/-- The challenge recomputed by `MembershipProof::verify`
(`src/proof.rs` lines 136-155): the same serialisations of
`acc.value`, `elem.value`, `commitment.t1`, `commitment.t2`, hashed and
reduced identically. -/
def verifierChallenge (ser : PointSerializer)
    (accValue elemValue t1 t2 : ZMod blsR) : ZMod blsR :=
  let acc_bytes := ser.g1 accValue
  let elem_bytes := ser.g1 elemValue
  let t1_bytes := ser.g1 t1
  let t2_bytes := ser.g2 t2
  let challenge_bytes := sha256 (acc_bytes ++ elem_bytes ++ t1_bytes ++ t2_bytes)
  fromLeBytesModOrder challenge_bytes

/-- C5: `Accumulator::add` sets the accumulator's value to exactly
`e.X + A·α` — the element's G1 point plus the old value scaled by `α` —
and, being a total function with no error path, cannot fail. -/
theorem add_value_eq (acc : Accumulator F) (sk : SecretKey F) (elem : Element F) :
    (acc.add sk elem).value = elem.value + acc.value * sk.alpha :=
  rfl

/-- C4: `MembershipWitness::generate` fails (the `expect` on the field
inversion, the condition the spec calls `SingularInput`) if and only if
`e.x + α = 0`; whenever `e.x + α ≠ 0` it returns the witness
`W = A·(e.x + α)⁻¹` — equivalently, the returned `W` satisfies
`W·(e.x + α) = A` — without failing. -/
theorem membership_generate_singular_iff (acc : Accumulator F) (sk : SecretKey F)
    (elem : Element F) :
    (MembershipWitness.generate acc sk elem = none ↔ elem.x + sk.alpha = 0) ∧
      (elem.x + sk.alpha ≠ 0 →
        ∃ w, MembershipWitness.generate acc sk elem = some w ∧
          w.value = acc.value * (elem.x + sk.alpha)⁻¹ ∧
          w.value * (elem.x + sk.alpha) = acc.value) := by
  constructor
  · by_cases h : elem.x + sk.alpha = 0 <;>
      simp [MembershipWitness.generate, h]
  · intro h
    refine ⟨⟨acc.value * (elem.x + sk.alpha)⁻¹⟩, ?_, rfl, ?_⟩
    · simp [MembershipWitness.generate, h]
    · rw [mul_assoc, inv_mul_cancel₀ h, mul_one]

/-- C4, evaluated: for `A = g1·3`, `α = 1`, `e = (0, identity)` the sum
`e.x + α = 1` is nonzero and issuance succeeds with `W·(e.x + α) = A`. -/
theorem membership_generate_singular_iff_checked :
    ((0 : F13) + 1 ≠ 0) ∧
      (∃ w, MembershipWitness.generate (F := F13) ⟨3⟩ ⟨1⟩ ⟨0, 0⟩ = some w ∧
        w.value = (3 : F13) * ((0 : F13) + 1)⁻¹ ∧
        w.value * ((0 : F13) + 1) = (3 : F13)) :=
  ⟨by decide, (membership_generate_singular_iff ⟨3⟩ ⟨1⟩ ⟨0, 0⟩).2 (by decide)⟩

/-- C8 fails as stated: with `α = 1` and the distinct consistent elements
`a = (g1·1, 1)`, `b = (g1·2, 2)`, adding `a` then `b` and adding `b` then
`a` both yield the accumulator value `g1·4` — the two orders coincide, so
order sensitivity does not hold for every secret key. -/
theorem add_order_counterexample :
    (1 : F13) ≠ (2 : F13) ∧
      (Element.mk (1 : F13) 1).value = 1 * (Element.mk (1 : F13) 1).x ∧
      (Element.mk (2 : F13) 2).value = 1 * (Element.mk (2 : F13) 2).x ∧
      ((Accumulator.new.add ⟨(1 : F13)⟩ ⟨1, 1⟩).add ⟨1⟩ ⟨2, 2⟩).value =
        ((Accumulator.new.add ⟨(1 : F13)⟩ ⟨2, 2⟩).add ⟨1⟩ ⟨1, 1⟩).value := by
  decide

/-- C8, amended: for every secret key with `α ≠ 1` and all distinct
consistent elements `a`, `b`, the two insertion orders from a fresh
accumulator yield different accumulator values; insertion order is
observable in the final state. -/
theorem add_order_sensitive (sk : SecretKey F) (a b : Element F)
    (hab : a.x ≠ b.x) (ha : a.value = 1 * a.x) (hb : b.value = 1 * b.x)
    (halpha : sk.alpha ≠ 1) :
    ((Accumulator.new.add sk a).add sk b).value ≠
      ((Accumulator.new.add sk b).add sk a).value := by
  intro h
  simp only [Accumulator.new, Accumulator.add, ha, hb] at h
  have hfac : (b.x - a.x) * (1 - sk.alpha) = 0 := by linear_combination h
  rcases mul_eq_zero.mp hfac with h1 | h2
  · exact hab (by linear_combination -h1)
  · exact halpha (by linear_combination -h2)

/-- C8, amended, evaluated: with `α = 2`, `a = (g1·1, 1)`, `b = (g1·2, 2)`
the two orders give `g1·8` and `g1·9`. -/
theorem add_order_sensitive_checked :
    (1 : F13) ≠ (2 : F13) ∧
      ((Accumulator.new.add ⟨(2 : F13)⟩ ⟨1, 1⟩).add ⟨2⟩ ⟨2, 2⟩).value ≠
        ((Accumulator.new.add ⟨(2 : F13)⟩ ⟨2, 2⟩).add ⟨2⟩ ⟨1, 1⟩).value :=
  ⟨by decide,
    add_order_sensitive ⟨2⟩ ⟨1, 1⟩ ⟨2, 2⟩ (by decide) (by decide) (by decide)
      (by decide)⟩

/-- C10: for every accumulator state and every secret key with `α ≠ 0`,
the zero element `(x = 0, X = identity)` is never rejected:
`MembershipWitness::generate` issues a witness for it and that witness
verifies true against `(A, e, pk)` although the element was never added —
membership verification cannot reject the zero element. -/
theorem zero_element_always_verifies (acc : Accumulator F) (sk : SecretKey F)
    (halpha : sk.alpha ≠ 0) :
    ∃ w, MembershipWitness.generate acc sk ⟨0, 0⟩ = some w ∧
      w.verify acc ⟨0, 0⟩ sk.to_public_key = true := by
  refine ⟨⟨acc.value * ((0 : F) + sk.alpha)⁻¹⟩, ?_, ?_⟩
  · simp [MembershipWitness.generate, halpha]
  · simp only [MembershipWitness.verify, SecretKey.to_public_key, pairing,
      decide_eq_true_eq]
    field_simp

/-- C10, evaluated: `A = g1·5`, `α = 2`. -/
theorem zero_element_always_verifies_checked :
    ∃ w, MembershipWitness.generate (F := F13) ⟨5⟩ ⟨2⟩ ⟨0, 0⟩ = some w ∧
      w.verify ⟨5⟩ ⟨0, 0⟩ (SecretKey.mk (2 : F13)).to_public_key = true :=
  zero_element_always_verifies ⟨5⟩ ⟨2⟩ (by decide)

/-- C1 names a true property of the intended scheme that this code does
not have: after adding two elements `a = (g1·3, 3)` and `b = (g1·5, 5)`
under `α = 2` to a fresh accumulator, the witness that
`MembershipWitness::generate` issues for `b` fails
`MembershipWitness::verify` — over every field in which `7 ≠ 0` and
`40 ≠ 0`, in particular over the BLS12-381 scalar field.  The
verification equation `e(W, g2·α)·e(e.X, g2) = e(A, g2)` pairs the
element's own point `e.X` instead of `W·e.x`, which only matches the
issued witness when the accumulator holds exactly one element (or
`e.x = 0`). -/
theorem membership_verify_false_after_two_adds (h7 : (7 : F) ≠ 0)
    (h40 : (40 : F) ≠ 0) :
    ∃ w, MembershipWitness.generate
        ((Accumulator.new.add ⟨(2 : F)⟩ ⟨3, 3⟩).add ⟨2⟩ ⟨5, 5⟩) ⟨2⟩ ⟨5, 5⟩
        = some w ∧
      w.verify ((Accumulator.new.add ⟨(2 : F)⟩ ⟨3, 3⟩).add ⟨2⟩ ⟨5, 5⟩) ⟨5, 5⟩
        (SecretKey.mk (2 : F)).to_public_key = false := by
  have hsum : (Element.mk (5 : F) 5).x + (SecretKey.mk (2 : F)).alpha ≠ 0 := by
    intro h
    exact h7 (by linear_combination h)
  refine ⟨⟨((Accumulator.new.add ⟨(2 : F)⟩ ⟨3, 3⟩).add ⟨2⟩ ⟨5, 5⟩).value *
      ((Element.mk (5 : F) 5).x + (SecretKey.mk (2 : F)).alpha)⁻¹⟩, ?_, ?_⟩
  · simp [MembershipWitness.generate, hsum]
  · simp only [MembershipWitness.verify, SecretKey.to_public_key, pairing,
      Accumulator.new, Accumulator.add, decide_eq_false_iff_not]
    intro h
    apply h40
    have hne : (5 : F) + 2 ≠ 0 := hsum
    field_simp at h
    linear_combination -h

/-- C1, evaluated in `F13` (where `7 ≠ 0` and `40 ≠ 0`, as in `Fr`):
the issued witness for the second added element verifies false. -/
theorem membership_verify_false_after_two_adds_checked :
    (7 : F13) ≠ 0 ∧ (40 : F13) ≠ 0 ∧
      ∃ w, MembershipWitness.generate
          ((Accumulator.new.add ⟨(2 : F13)⟩ ⟨3, 3⟩).add ⟨2⟩ ⟨5, 5⟩) ⟨2⟩ ⟨5, 5⟩
          = some w ∧
        w.verify ((Accumulator.new.add ⟨(2 : F13)⟩ ⟨3, 3⟩).add ⟨2⟩ ⟨5, 5⟩)
          ⟨5, 5⟩ (SecretKey.mk (2 : F13)).to_public_key = false :=
  ⟨by decide, by decide,
    membership_verify_false_after_two_adds (by decide) (by decide)⟩

/-- C7: whenever `e.x + α ≠ 0`, `NonMembershipWitness::generate` succeeds
— in particular its internal re-check `assert!(g1·v + d·(e.x+α) = A)`
never fires — the returned pair satisfies `A = g1·v + d·(e.x + α)`, and
it verifies true against `(A, e, to_public_key(sk))`. -/
theorem nonmembership_generate_sound (acc : Accumulator F) (sk : SecretKey F)
    (e : Element F) (v : F) (hsum : e.x + sk.alpha ≠ 0) :
    ∃ w, NonMembershipWitness.generate acc sk e v = some w ∧
      1 * w.v + w.d * (e.x + sk.alpha) = acc.value ∧
      w.verify acc e sk.to_public_key = true := by
  have hassert : 1 * v +
      (acc.value + -(1 * v)) * (e.x + sk.alpha)⁻¹ * (e.x + sk.alpha)
        = acc.value := by
    rw [mul_assoc, inv_mul_cancel₀ hsum, mul_one]
    ring
  refine ⟨⟨(acc.value + -(1 * v)) * (e.x + sk.alpha)⁻¹, v⟩, ?_, hassert, ?_⟩
  · simp only [NonMembershipWitness.generate, if_neg hsum, if_pos hassert]
  · simp only [NonMembershipWitness.verify, SecretKey.to_public_key, pairing,
      decide_eq_true_eq]
    field_simp
    ring

/-- C7, evaluated: `A = g1`, `α = 0`, `e = (g1·1, 1)`, sampled `v = 5`. -/
theorem nonmembership_generate_sound_checked :
    ((1 : F13) + 0 ≠ 0) ∧
      ∃ w, NonMembershipWitness.generate (F := F13) ⟨1⟩ ⟨0⟩ ⟨1, 1⟩ 5 = some w ∧
        1 * w.v + w.d * ((1 : F13) + 0) = (1 : F13) ∧
        w.verify ⟨1⟩ ⟨1, 1⟩ (SecretKey.mk (0 : F13)).to_public_key = true :=
  ⟨by decide, nonmembership_generate_sound ⟨1⟩ ⟨0⟩ ⟨1, 1⟩ 5 (by decide)⟩

/-- C6 fails as stated: with `A = g1`, `α = 0`, `e = (g1·1, 1)`
(`e.x + α = 1 ≠ 0`, `e.value = g1·e.x`) and sampled `v = 5`, issuance
returns the witness `(g1·9, 5)`, yet after `add(sk, e)` — which leaves
the accumulator value unchanged, `e.X + A·α = A` — that witness still
verifies true against the new state, not false. -/
theorem nonmembership_invalidation_counterexample :
    (Element.mk (1 : F13) 1).value = 1 * (Element.mk (1 : F13) 1).x ∧
      ((1 : F13) + 0 ≠ 0) ∧
      NonMembershipWitness.generate (F := F13) ⟨1⟩ ⟨0⟩ ⟨1, 1⟩ 5 = some ⟨9, 5⟩ ∧
      (NonMembershipWitness.mk (9 : F13) 5).verify
        ((Accumulator.mk (1 : F13)).add ⟨0⟩ ⟨1, 1⟩) ⟨1, 1⟩
        (SecretKey.mk (0 : F13)).to_public_key = true := by
  refine ⟨by decide, by decide, ?_, by decide⟩
  have h1 : ((1 : F13) + 0)⁻¹ = 1 := by
    rw [add_zero, inv_one]
  simp only [NonMembershipWitness.generate, h1]
  decide

/-- C6, amended: under the claim's hypotheses and the additional
hypothesis that the addition actually changes the accumulator value
(`e.X + A·α ≠ A` — which fails only on the degenerate fixed-point cases,
e.g. `α = 0` with `e.X = A·(1 − α)`), a previously issued non-membership
witness for `e` verifies false after `add(sk, e)`. -/
theorem nonmembership_witness_invalidated (acc : Accumulator F)
    (sk : SecretKey F) (e : Element F) (v : F) (w : NonMembershipWitness F)
    (hval : e.value = 1 * e.x) (hsum : e.x + sk.alpha ≠ 0)
    (hchange : e.value + acc.value * sk.alpha ≠ acc.value)
    (hgen : NonMembershipWitness.generate acc sk e v = some w) :
    w.verify (acc.add sk e) e sk.to_public_key = false := by
  have hassert : 1 * v +
      (acc.value + -(1 * v)) * (e.x + sk.alpha)⁻¹ * (e.x + sk.alpha)
        = acc.value := by
    rw [mul_assoc, inv_mul_cancel₀ hsum, mul_one]
    ring
  rw [NonMembershipWitness.generate] at hgen
  simp only [if_neg hsum, if_pos hassert, Option.some.injEq] at hgen
  subst hgen
  simp only [NonMembershipWitness.verify, SecretKey.to_public_key, pairing,
    Accumulator.add, decide_eq_false_iff_not]
  intro h
  apply hchange
  have h2 : (e.value + acc.value * sk.alpha) * (e.x + sk.alpha)
      = acc.value * (e.x + sk.alpha) := by
    field_simp at h
    linear_combination h
  exact mul_right_cancel₀ hsum h2

/-- C6, amended, evaluated: `A = g1`, `α = 2`, `e = (g1·1, 1)`, `v = 5`:
the witness issued before the addition verifies false afterwards. -/
theorem nonmembership_witness_invalidated_checked :
    (Element.mk (1 : F13) 1).value = 1 * (Element.mk (1 : F13) 1).x ∧
      ((1 : F13) + 2 ≠ 0) ∧
      ((1 : F13) + 1 * 2 ≠ 1) ∧
      (NonMembershipWitness.mk (3 : F13) 5).verify
        ((Accumulator.mk (1 : F13)).add ⟨2⟩ ⟨1, 1⟩) ⟨1, 1⟩
        (SecretKey.mk (2 : F13)).to_public_key = false :=
  ⟨by decide, by decide, by decide,
    nonmembership_witness_invalidated ⟨1⟩ ⟨2⟩ ⟨1, 1⟩ 5 ⟨3, 5⟩ (by decide)
      (by decide) (by decide)
      (by
        have h3 : ((1 : F13) + 2)⁻¹ = 9 := inv_eq_of_mul_eq_one_right (by decide)
        simp only [NonMembershipWitness.generate, h3]
        decide)⟩

/-- C2: for every accumulator `A`, public key `to_public_key(sk)`, element
with `e.X = g1·e.x`, membership witness of any value, and random scalar
`r`, the proof returned by `create_proof` verifies true — regardless of
whether `e` was ever added to `A`.  Moreover the witness does not
influence the proof at all, and the accumulator influences it only
through the challenge hash input: two accumulator states on which the
challenge function agrees yield the same proof. -/
theorem create_proof_always_verifies (acc acc2 : Accumulator F)
    (sk : SecretKey F) (e : Element F) (w w2 : MembershipWitness F)
    (chal : F → F → F → F → F) (r : F) (hX : e.value = 1 * e.x) :
    (w.create_proof acc e sk.to_public_key chal r).verify acc e
        sk.to_public_key chal = true ∧
      w.create_proof acc e sk.to_public_key chal r
        = w2.create_proof acc e sk.to_public_key chal r ∧
      (chal acc.value e.value (1 * r) (SecretKey.to_public_key sk).g2 =
          chal acc2.value e.value (1 * r) (SecretKey.to_public_key sk).g2 →
        w.create_proof acc e sk.to_public_key chal r
          = w.create_proof acc2 e sk.to_public_key chal r) := by
  refine ⟨?_, rfl, ?_⟩
  · simp only [MembershipWitness.create_proof, MembershipProof.verify,
      SecretKey.to_public_key, pairing, decide_eq_true_eq]
    rw [hX]
    ring
  · intro h
    simp only [SecretKey.to_public_key] at h
    simp only [MembershipWitness.create_proof, SecretKey.to_public_key]
    rw [h]

/-- C2, evaluated: `A = g1·4`, `α = 2`, `e = (g1·3, 3)` (never added),
witness values `0` and `5`, `r = 6`, with the concrete challenge function
`chalDemo`: the proof verifies true. -/
theorem create_proof_always_verifies_checked :
    (Element.mk (3 : F13) 3).value = 1 * (Element.mk (3 : F13) 3).x ∧
      (((MembershipWitness.mk (0 : F13)).create_proof ⟨4⟩ ⟨3, 3⟩
            (SecretKey.mk (2 : F13)).to_public_key chalDemo 6).verify ⟨4⟩ ⟨3, 3⟩
          (SecretKey.mk (2 : F13)).to_public_key chalDemo = true ∧
        (MembershipWitness.mk (0 : F13)).create_proof ⟨4⟩ ⟨3, 3⟩
            (SecretKey.mk (2 : F13)).to_public_key chalDemo 6
          = (MembershipWitness.mk (5 : F13)).create_proof ⟨4⟩ ⟨3, 3⟩
            (SecretKey.mk (2 : F13)).to_public_key chalDemo 6 ∧
        (chalDemo (4 : F13) 3 (1 * 6) (SecretKey.to_public_key ⟨2⟩).g2 =
            chalDemo (7 : F13) 3 (1 * 6) (SecretKey.to_public_key ⟨2⟩).g2 →
          (MembershipWitness.mk (0 : F13)).create_proof ⟨4⟩ ⟨3, 3⟩
              (SecretKey.mk (2 : F13)).to_public_key chalDemo 6
            = (MembershipWitness.mk (0 : F13)).create_proof ⟨7⟩ ⟨3, 3⟩
              (SecretKey.mk (2 : F13)).to_public_key chalDemo 6)) :=
  ⟨by decide,
    create_proof_always_verifies ⟨4⟩ ⟨7⟩ ⟨2⟩ ⟨3, 3⟩ ⟨0⟩ ⟨5⟩ chalDemo 6
      (by decide)⟩

/-- C3 fails as stated: `MembershipProof::verify` never reads `e.x` (it
hashes and pairs only `e.value`), so altering `e.x` by the nonzero amount
`1` leaves a passing verification passing.  Concretely, with `A = g1·4`,
`e = (g1·3, 5)`, proof `(T1 = g1·2, T2 = g2·1, s = 6)` and the challenge
function `chalDemo`, verification returns true both at `e.x = 5` and at
`e.x = 5 + 1`. -/
theorem proof_binding_counterexample :
    (MembershipProof.mk ⟨2, 1⟩ 6).verify ⟨4⟩ ⟨3, 5⟩
        (SecretKey.mk (2 : F13)).to_public_key chalDemo = true ∧
      ((5 : F13) + 1 ≠ 5) ∧
      (MembershipProof.mk ⟨2, 1⟩ 6).verify ⟨4⟩ ⟨3, 5 + 1⟩
        (SecretKey.mk (2 : F13)).to_public_key chalDemo = true := by
  decide

/-- C3, amended: on a configuration `(A, e, to_public_key(sk), proof)`
accepted by `MembershipProof::verify`, altering the response `s` by a
nonzero amount makes verification return false, while altering `e.x`
(leaving the rest unchanged) never changes the verification result at
all — the verifier reads only `e.X`, never `e.x`. -/
theorem proof_response_binding (acc : Accumulator F) (sk : SecretKey F)
    (e : Element F) (p : MembershipProof F) (chal : F → F → F → F → F)
    (d : F) (hver : p.verify acc e sk.to_public_key chal = true)
    (hd : d ≠ 0) :
    (MembershipProof.mk p.commitment (p.response + d)).verify acc e
        sk.to_public_key chal = false ∧
      ∀ d2 : F, p.verify acc ⟨e.value, e.x + d2⟩ sk.to_public_key chal
        = p.verify acc e sk.to_public_key chal := by
  refine ⟨?_, fun d2 => rfl⟩
  simp only [MembershipProof.verify, SecretKey.to_public_key, pairing,
    decide_eq_true_eq] at hver
  simp only [MembershipProof.verify, SecretKey.to_public_key, pairing,
    decide_eq_false_iff_not]
  intro h
  apply hd
  linear_combination h - hver

/-- C3, amended, evaluated: on the accepting configuration of the
counterexample, adding `1` to the response makes verification fail, and
shifting `e.x` leaves the result unchanged. -/
theorem proof_response_binding_checked :
    (MembershipProof.mk ⟨2, 1⟩ 6).verify ⟨4⟩ ⟨3, 5⟩
        (SecretKey.mk (2 : F13)).to_public_key chalDemo = true ∧
      ((1 : F13) ≠ 0) ∧
      ((MembershipProof.mk (ProofCommitment.mk (2 : F13) 1) (6 + 1)).verify
          ⟨4⟩ ⟨3, 5⟩ (SecretKey.mk (2 : F13)).to_public_key chalDemo = false ∧
        (MembershipProof.mk ⟨2, 1⟩ 6).verify ⟨4⟩ ⟨3, 5 + 1⟩
            (SecretKey.mk (2 : F13)).to_public_key chalDemo
          = (MembershipProof.mk ⟨2, 1⟩ 6).verify ⟨4⟩ ⟨3, 5⟩
            (SecretKey.mk (2 : F13)).to_public_key chalDemo) :=
  ⟨by decide, by decide,
    (proof_response_binding ⟨4⟩ ⟨2⟩ ⟨3, 5⟩ ⟨⟨2, 1⟩, 6⟩ chalDemo 1 (by decide)
        (by decide)).1,
    (proof_response_binding ⟨4⟩ ⟨2⟩ ⟨3, 5⟩ ⟨⟨2, 1⟩, 6⟩ chalDemo 1 (by decide)
        (by decide)).2 1⟩

/-- SHA-256 of the empty message is the well-known digest
`e3b0c442…7852b855`: the model computes the real hash function. -/
theorem sha256_empty_vector :
    sha256 [] =
      [227, 176, 196, 66, 152, 252, 28, 20,
       154, 251, 244, 200, 153, 111, 185, 36,
       39, 174, 65, 228, 100, 155, 147, 76,
       164, 149, 153, 27, 120, 82, 184, 85] := by
  decide

/-- C9: both proof creation and verification derive the sigma-protocol
challenge as SHA-256 over the concatenated canonical serialisations of
`A`, `e.X`, `T1`, `T2` — in that order — with the 32-byte digest read as
a little-endian integer reduced modulo r; consequently prover and
verifier compute the same challenge on the same `(A, e.X, T1, T2)`. -/
theorem challenge_derivation_agrees (ser : PointSerializer)
    (a x t1 t2 : ZMod blsR) :
    proverChallenge ser a x t1 t2
        = fromLeBytesModOrder
            (sha256 (ser.g1 a ++ ser.g1 x ++ ser.g1 t1 ++ ser.g2 t2)) ∧
      verifierChallenge ser a x t1 t2
        = fromLeBytesModOrder
            (sha256 (ser.g1 a ++ ser.g1 x ++ ser.g1 t1 ++ ser.g2 t2)) ∧
      proverChallenge ser a x t1 t2 = verifierChallenge ser a x t1 t2 :=
  ⟨rfl, rfl, rfl⟩

end CryptoAccumulator
